import Mathlib

/-!
Verification of the Account Ledger and Session Validity subsystem of a
small banking backend.  The development shallowly embeds the relevant
TypeScript functions:

* card validation (Luhn) from the card-validation utility;
* the session expiry buffer check from the session status script;
* the tRPC procedures fundAccount and getTransactions from the account
  router, over an explicit storage state (accounts plus an append-only
  transaction journal);
* an interleaving machine for the storage operations of fundAccount,
  used to analyse concurrent executions.

Money amounts (JavaScript numbers) are modelled as rationals.
-/

attribute [local semireducible] Rat.add Rat.mul Rat.sub Rat.ofScientific

/-! ## Card validation (src card-validation utility) -/

/-- Membership in the JavaScript regular-expression class backslash-s,
the whitespace characters stripped by the cleaning step of
isValidCardNumber. -/
def isJsSpace (c : Char) : Bool :=
  let n := c.toNat
  n == 9 || n == 10 || n == 11 || n == 12 || n == 13 || n == 32 ||
  n == 160 || n == 5760 || (8192 ≤ n && n ≤ 8202) || n == 8232 ||
  n == 8233 || n == 8239 || n == 8287 || n == 12288 || n == 65279

/-- The cleaning step of isValidCardNumber: remove every whitespace
character and every dash, as the source regex does. -/
def cleanCard (s : String) : String :=
  String.mk (s.data.filter (fun c => !(isJsSpace c || c == '-')))

/-- Numeric value of a decimal digit character. -/
def charDigit (c : Char) : Nat := c.toNat - 48

/-- Luhn doubling of one digit: double it and subtract 9 when the result
exceeds 9, as in the loop body of validateLuhn. -/
def luhnDouble (d : Nat) : Nat :=
  if 2 * d > 9 then 2 * d - 9 else 2 * d

/-- The summation loop of validateLuhn.  The digit list is given
right-to-left and the boolean flag mirrors the isEven variable of the
source, which starts false and is negated after every digit. -/
def luhnSumAux : List Nat → Bool → Nat
  | [], _ => 0
  | d :: rest, flag =>
    (if flag then luhnDouble d else d) + luhnSumAux rest (!flag)

/-- Index-based restatement of the Luhn sum: digit i (counting from the
right, starting at 0) is doubled exactly when i is odd. -/
def luhnSumFrom : Nat → List Nat → Nat
  | _, [] => 0
  | i, d :: rest =>
    (if i % 2 = 1 then luhnDouble d else d) + luhnSumFrom (i + 1) rest

/-- validateLuhn from the card-validation utility: the argument must be
nonempty and all digits, 13 to 19 characters long, and the Luhn sum of
its digits must be divisible by 10. -/
def validateLuhn (s : String) : Bool :=
  if !(s.data.all Char.isDigit) || s.data.isEmpty then false
  else if s.data.length < 13 || s.data.length > 19 then false
  else luhnSumAux (s.data.reverse.map charDigit) false % 10 == 0

/-- isValidCardNumber from the card-validation utility: reject the empty
string, strip whitespace and dashes, require 13 to 19 digits, then run
validateLuhn on the cleaned string. -/
def isValidCardNumber (s : String) : Bool :=
  if s.isEmpty then false
  else
    if !(((cleanCard s).data.all Char.isDigit) &&
         (13 ≤ (cleanCard s).data.length && (cleanCard s).data.length ≤ 19)) then false
    else validateLuhn (cleanCard s)

/-- Removal of space and dash characters only.  This is the stripping
transformation named by the specification text, used to compare against
the broader whitespace stripping the code performs. -/
def stripSpaceDash (s : String) : String :=
  String.mk (s.data.filter (fun c => !(c == ' ' || c == '-')))

/-! ## Session validity (session expiry test script, check-status) -/

/-- The five minute buffer, in milliseconds. -/
def sessionBufferMs : Int := 5 * 60 * 1000

/-- The session validity check of the check-status command: the time
remaining until expiry must be strictly greater than the buffer. -/
def isSessionValid (expiresAtMs nowMs : Int) : Bool :=
  decide (sessionBufferMs < expiresAtMs - nowMs)

/-! ## Sanity examples -/

example : isValidCardNumber "4242424242424242" = true := by decide
example : isValidCardNumber "4242 4242-4242 4242" = true := by decide
example : isValidCardNumber "123" = false := by decide
example : isSessionValid 300000 0 = false := by decide
example : isSessionValid 300001 0 = true := by decide

/-! ## Storage model: accounts and the transaction journal -/

/-- One account row, as selected by the account router. -/
structure Account where
  id : Nat
  userId : Nat
  accountNumber : String
  accountType : String
  balance : Rat
  status : String
deriving DecidableEq

/-- One journal row.  createdAt is the monotonic insertion timestamp the
database assigns; processedAt is the timestamp the router writes. -/
structure Transaction where
  id : Nat
  accountId : Nat
  txType : String
  amount : Rat
  description : String
  status : String
  createdAt : Nat
  processedAt : Nat
deriving DecidableEq

/-- The backing store: account rows, the append-only journal, the next
journal row id, and the current clock used for createdAt values. -/
structure DB where
  accounts : List Account
  transactions : List Transaction
  nextTxId : Nat
  now : Nat
deriving DecidableEq

/-- Funding source kinds accepted by the fundAccount input schema. -/
inductive FsType
  | card
  | bank
deriving DecidableEq

/-- Printed name of a funding source kind, used in the journal row
description the router writes. -/
def FsType.name : FsType → String
  | .card => "card"
  | .bank => "bank"

/-- The fundingSource object of the fundAccount input. -/
structure FundingSource where
  type : FsType
  accountNumber : String
  routingNumber : Option String
deriving DecidableEq

/-- Error taxonomy of the ledger operations, following the spec names
for the error codes the router throws. -/
inductive LedgerError
  | invalidInput
  | notFound
  | invalidState
deriving DecidableEq

/-- Result of a successful fundAccount call: the fetched transaction row
and the returned balance. -/
structure FundResult where
  transaction : Option Transaction
  newBalance : Rat
deriving DecidableEq

/-- The zod input schema of fundAccount: the amount must be positive,
and a bank funding source must carry a routing number of exactly nine
digits.  No other constraint on the amount is present. -/
def fundInputValid (amount : Rat) (fs : FundingSource) : Bool :=
  decide (0 < amount) &&
    (match fs.type, fs.routingNumber with
     | .bank, some r => r.data.length == 9 && r.data.all Char.isDigit
     | .bank, none => false
     | .card, _ => true)

/-- The journal row fundAccount inserts: a completed deposit for the
given account and amount. -/
def depositTx (db : DB) (accountId : Nat) (amount : Rat) (src : FsType) : Transaction :=
  { id := db.nextTxId
    accountId := accountId
    txType := "deposit"
    amount := amount
    description := "Funding from " ++ src.name
    status := "completed"
    createdAt := db.now
    processedAt := db.now }

/-- The journal insert of fundAccount: append the deposit row and tick
the id counter and the clock. -/
def insertDeposit (db : DB) (accountId : Nat) (amount : Rat) (src : FsType) : DB :=
  { db with
      transactions := db.transactions ++ [depositTx db accountId amount src]
      nextTxId := db.nextTxId + 1
      now := db.now + 1 }

/-- The balance update of fundAccount: set the balance of every account
row matching the id to the given value. -/
def updateBalance (db : DB) (accountId : Nat) (newBal : Rat) : DB :=
  { db with
      accounts := db.accounts.map
        (fun a => if a.id == accountId then { a with balance := newBal } else a) }

/-- Relation ordering journal rows most recent first. -/
def laterTx (a b : Transaction) : Prop := b.createdAt ≤ a.createdAt

instance : DecidableRel laterTx := fun a b => Nat.decLe b.createdAt a.createdAt

instance : IsTotal Transaction laterTx :=
  ⟨fun a b => (Nat.le_total a.createdAt b.createdAt).symm⟩

instance : IsTrans Transaction laterTx :=
  ⟨fun _ _ _ hab hbc => Nat.le_trans hbc hab⟩

/-- The single-row fetch fundAccount issues after the insert: the rows
of the account ordered by createdAt descending, first row if any. -/
def latestTxFor (db : DB) (accountId : Nat) : Option Transaction :=
  (((db.transactions.filter (fun t => t.accountId == accountId)).insertionSort laterTx).head?)

/-- The fundAccount mutation of the account router.  It validates the
input schema, then the card number for card sources, then looks up the
account by id and caller, checks the active status, inserts the journal
row, fetches the latest row, writes the balance read before the insert
plus the amount, re-fetches the account and returns its stored balance.
Every failure happens before any write, and the state is returned
unchanged there. -/
def fundAccount (db : DB) (callerId accountId : Nat) (amount : Rat) (fs : FundingSource) :
    Except LedgerError FundResult × DB :=
  if !(fundInputValid amount fs) then (.error .invalidInput, db)
  else if fs.type == .card && !(isValidCardNumber fs.accountNumber) then
    (.error .invalidInput, db)
  else
    match db.accounts.find? (fun a => a.id == accountId && a.userId == callerId) with
    | none => (.error .notFound, db)
    | some account =>
      if account.status != "active" then (.error .invalidState, db)
      else
        let db1 := insertDeposit db accountId amount fs.type
        let fetched := latestTxFor db1 accountId
        let db2 := updateBalance db1 accountId (account.balance + amount)
        let newBal :=
          match db2.accounts.find? (fun a => a.id == accountId) with
          | some a => a.balance
          | none => account.balance + amount
        (.ok { transaction := fetched, newBalance := newBal }, db2)

/-! ## Paginated history: the join query and the per-row variant -/

/-- One row of the join query: all transaction columns plus the
accountType column of the joined account row. -/
structure JoinedTx where
  id : Nat
  accountId : Nat
  txType : String
  amount : Rat
  description : String
  status : String
  createdAt : Nat
  processedAt : Nat
  accountType : String
deriving DecidableEq

/-- One row of the older per-row enrichment: the transaction spread plus
an optional accountType, absent when the account lookup found nothing. -/
structure EnrichedTx where
  id : Nat
  accountId : Nat
  txType : String
  amount : Rat
  description : String
  status : String
  createdAt : Nat
  processedAt : Nat
  accountType : Option String
deriving DecidableEq

/-- The join of one transaction row with one account row. -/
def joinRow (t : Transaction) (a : Account) : JoinedTx :=
  { id := t.id
    accountId := t.accountId
    txType := t.txType
    amount := t.amount
    description := t.description
    status := t.status
    createdAt := t.createdAt
    processedAt := t.processedAt
    accountType := a.accountType }

/-- The transaction columns of a joined row. -/
def JoinedTx.toTx (j : JoinedTx) : Transaction :=
  { id := j.id
    accountId := j.accountId
    txType := j.txType
    amount := j.amount
    description := j.description
    status := j.status
    createdAt := j.createdAt
    processedAt := j.processedAt }

/-- A joined row viewed as an enriched row. -/
def JoinedTx.toEnriched (j : JoinedTx) : EnrichedTx :=
  { id := j.id
    accountId := j.accountId
    txType := j.txType
    amount := j.amount
    description := j.description
    status := j.status
    createdAt := j.createdAt
    processedAt := j.processedAt
    accountType := some j.accountType }

/-- Relation ordering joined rows most recent first. -/
def laterJx (a b : JoinedTx) : Prop := b.createdAt ≤ a.createdAt

instance : DecidableRel laterJx := fun a b => Nat.decLe b.createdAt a.createdAt

instance : IsTotal JoinedTx laterJx :=
  ⟨fun a b => (Nat.le_total a.createdAt b.createdAt).symm⟩

instance : IsTrans JoinedTx laterJx :=
  ⟨fun _ _ _ hab hbc => Nat.le_trans hbc hab⟩

/-- The inner join of the getTransactions query before ordering and
paging: the journal rows of the account, each joined with the account
row found for its accountId.  Account ids are primary keys, so the
matching row is the first and only one. -/
def joinedAll (db : DB) (accountId : Nat) : List JoinedTx :=
  (db.transactions.filter (fun t => t.accountId == accountId)).filterMap
    (fun t => (db.accounts.find? (fun a => a.id == t.accountId)).map (fun a => joinRow t a))

/-- The getTransactions query of the account router: verify that the
account belongs to the caller, then return one page of the joined rows
ordered by createdAt descending, skipping offset rows and returning at
most limit rows. -/
def getTransactions (db : DB) (callerId accountId limit offset : Nat) :
    Except LedgerError (List JoinedTx) :=
  match db.accounts.find? (fun a => a.id == accountId && a.userId == callerId) with
  | none => .error .notFound
  | some _ =>
    .ok ((((joinedAll db accountId).insertionSort laterJx).drop offset).take limit)

/-- The per-row enrichment of one transaction: look the account up again
and copy its accountType, absent when nothing was found. -/
def enrichRow (db : DB) (t : Transaction) : EnrichedTx :=
  { id := t.id
    accountId := t.accountId
    txType := t.txType
    amount := t.amount
    description := t.description
    status := t.status
    createdAt := t.createdAt
    processedAt := t.processedAt
    accountType := (db.accounts.find? (fun a => a.id == t.accountId)).map (fun a => a.accountType) }

/-- The earlier getTransactions of the account router: same ownership
check, then the whole history ordered by createdAt descending, enriched
by one account lookup per row, with no paging. -/
def getTransactionsOld (db : DB) (callerId accountId : Nat) :
    Except LedgerError (List EnrichedTx) :=
  match db.accounts.find? (fun a => a.id == accountId && a.userId == callerId) with
  | none => .error .notFound
  | some _ =>
    .ok (((db.transactions.filter (fun t => t.accountId == accountId)).insertionSort laterTx).map
      (enrichRow db))

/-- Rows of a query result, empty on error. -/
def okRows (r : Except LedgerError (List JoinedTx)) : List JoinedTx :=
  match r with
  | .ok l => l
  | .error _ => []

/-- Rows of a per-row-enriched query result, empty on error. -/
def okRowsE (r : Except LedgerError (List EnrichedTx)) : List EnrichedTx :=
  match r with
  | .ok l => l
  | .error _ => []

/-- Returned balance of a fundAccount result, zero on error. -/
def okBalance (r : Except LedgerError FundResult) : Rat :=
  match r with
  | .ok res => res.newBalance
  | .error _ => 0

/-! ## Invariants and request sequences -/

/-- Sum of the amounts of the completed journal rows of one account. -/
def txSum (db : DB) (accountId : Nat) : Rat :=
  ((db.transactions.filter
      (fun t => t.accountId == accountId && t.status == "completed")).map
    (fun t => t.amount)).sum

/-- Balance consistency: every stored balance equals the completed sum
of its own journal rows. -/
def balanceOk (db : DB) : Prop :=
  ∀ a ∈ db.accounts, a.balance = txSum db a.id

instance : DecidablePred balanceOk := fun db => by
  unfold balanceOk; exact List.decidableBAll _ _

/-- One fundAccount request. -/
structure FundReq where
  callerId : Nat
  accountId : Nat
  amount : Rat
  fs : FundingSource

/-- Sequential execution of a list of fundAccount requests, each against
the state the previous one left.  Failed requests leave the state
unchanged, so this covers every sequence of successful calls. -/
def applyFunds (db : DB) : List FundReq → DB
  | [] => db
  | r :: rs => applyFunds (fundAccount db r.callerId r.accountId r.amount r.fs).2 rs

/-! ## Interleaving machine for concurrent fundAccount calls -/

/-- Control state of one in-flight fundAccount call, reduced to its
storage operations: program counter, the balance read at the account
lookup, and the balance read back at the end. -/
structure FundThread where
  pc : Nat := 0
  snapBalance : Rat := 0
  retBalance : Rat := 0
deriving DecidableEq

/-- Stored balance of an account, zero when the row is missing. -/
def getBalance (db : DB) (accountId : Nat) : Rat :=
  match db.accounts.find? (fun a => a.id == accountId) with
  | some a => a.balance
  | none => 0

/-- One storage operation of an in-flight fundAccount call.  Step 0 is
the account lookup that reads the balance into local memory, step 1 the
journal insert, step 2 the read-only fetch of the latest row, step 3 the
balance write computed from the snapshot read at step 0, step 4 the
re-fetch of the account.  Each numbered step is one call into the store;
between two steps of one call, steps of the other call may run. -/
def fundThreadStep (callerId accountId : Nat) (amount : Rat) (src : FsType)
    (db : DB) (t : FundThread) : DB × FundThread :=
  match t.pc with
  | 0 =>
    match db.accounts.find? (fun a => a.id == accountId && a.userId == callerId) with
    | some a =>
      if a.status != "active" then (db, { t with pc := 9 })
      else (db, { t with pc := 1, snapBalance := a.balance })
    | none => (db, { t with pc := 9 })
  | 1 => (insertDeposit db accountId amount src, { t with pc := 2 })
  | 2 => (db, { t with pc := 3 })
  | 3 => (updateBalance db accountId (t.snapBalance + amount), { t with pc := 4 })
  | 4 => (db, { t with pc := 5, retBalance := getBalance db accountId })
  | _ => (db, t)

/-- Run two concurrent fundAccount calls under a schedule: true runs the
next storage operation of the first call, false of the second. -/
def runTwo (callerId accountId : Nat) (amount : Rat) (src : FsType) :
    List Bool → DB × FundThread × FundThread → DB × FundThread × FundThread
  | [], s => s
  | b :: rest, (db, t1, t2) =>
    if b then
      let p := fundThreadStep callerId accountId amount src db t1
      runTwo callerId accountId amount src rest (p.1, p.2, t2)
    else
      let p := fundThreadStep callerId accountId amount src db t2
      runTwo callerId accountId amount src rest (p.1, t1, p.2)

/-! ## Concrete states used by witnesses and counterexamples -/

/-- An active checking account with balance zero and an empty journal. -/
def dbZero : DB :=
  { accounts := [{ id := 1, userId := 1, accountNumber := "1234567890",
                   accountType := "checking", balance := 0, status := "active" }]
    transactions := []
    nextTxId := 1
    now := 0 }

/-- A valid test card as funding source. -/
def cardFs : FundingSource :=
  { type := .card, accountNumber := "4242424242424242", routingNumber := none }

/-- The amount check as the specification states it: positive, within
the 10000 ceiling, and with at most two fractional digits. -/
def specAmountOk (q : Rat) : Bool :=
  decide (0 < q) && decide (q ≤ 10000) && ((q * 100).den == 1)

/-- A store with one account and three journal rows, two of them sharing
one createdAt value, used to exercise pagination with ties. -/
def dbPage : DB :=
  { accounts := [{ id := 1, userId := 1, accountNumber := "1234567890",
                   accountType := "checking", balance := 30, status := "active" }]
    transactions :=
      [ { id := 1, accountId := 1, txType := "deposit", amount := 10,
          description := "Funding from card", status := "completed",
          createdAt := 0, processedAt := 0 }
      , { id := 2, accountId := 1, txType := "deposit", amount := 5,
          description := "Funding from card", status := "completed",
          createdAt := 1, processedAt := 1 }
      , { id := 3, accountId := 1, txType := "deposit", amount := 15,
          description := "Funding from bank", status := "completed",
          createdAt := 1, processedAt := 1 } ]
    nextTxId := 4
    now := 2 }

/-! ## Theorems -/

/-- Claim C4: the session check returns valid exactly when the time
remaining until expiry strictly exceeds the five minute buffer; a
remaining time of exactly five minutes is invalid, five minutes plus one
second is valid, and an already expired session is invalid. -/
theorem session_buffer_strict (e n : Int) :
    (isSessionValid e n = true ↔ sessionBufferMs < e - n)
    ∧ (e - n = sessionBufferMs → isSessionValid e n = false)
    ∧ (e - n = sessionBufferMs + 1000 → isSessionValid e n = true)
    ∧ (e - n ≤ 0 → isSessionValid e n = false) := by
  refine ⟨decide_eq_true_iff, ?_, ?_, ?_⟩ <;> intro h
  · unfold isSessionValid; rw [h]; decide
  · unfold isSessionValid; rw [h]; decide
  · unfold isSessionValid
    rw [decide_eq_false_iff_not]
    unfold sessionBufferMs
    omega

/-- Witness for C4 at the three boundary instants. -/
theorem session_buffer_strict_witness :
    isSessionValid 300000 0 = false ∧ isSessionValid 301000 0 = true ∧
      isSessionValid (-1000) 0 = false :=
  ⟨(session_buffer_strict 300000 0).2.1 (by decide),
   (session_buffer_strict 301000 0).2.2.1 (by decide),
   (session_buffer_strict (-1000) 0).2.2.2 (by decide)⟩

/-- The flag-toggling Luhn loop equals the index-based Luhn sum: the
flag at position i from the right is exactly the parity bit of i. -/
theorem luhnAux_from : ∀ (l : List Nat) (i : Nat),
    luhnSumAux l (i % 2 == 1) = luhnSumFrom i l := by
  intro l
  induction l with
  | nil => intro i; rfl
  | cons d rest ih =>
    intro i
    have hflag : (!(i % 2 == 1)) = ((i + 1) % 2 == 1) := by
      rcases Nat.mod_two_eq_zero_or_one i with h | h <;> simp [Nat.add_mod, h]
    simp only [luhnSumAux, luhnSumFrom, hflag, ih]
    rcases Nat.mod_two_eq_zero_or_one i with h | h <;> simp [h]

/-- The card check as one boolean conjunction: all digits, length
between 13 and 19 after cleaning, and Luhn sum divisible by 10. -/
theorem isValidCard_eq (s : String) :
    isValidCardNumber s =
      ((cleanCard s).data.all Char.isDigit &&
        (decide (13 ≤ (cleanCard s).data.length) &&
          decide ((cleanCard s).data.length ≤ 19)) &&
        (luhnSumFrom 0 ((cleanCard s).data.reverse.map charDigit) % 10 == 0)) := by
  by_cases h0 : s.isEmpty = true
  · have hs : s = "" := (String.isEmpty_iff s).mp h0
    subst hs; decide
  · rw [Bool.not_eq_true] at h0
    have haux : luhnSumAux ((cleanCard s).data.reverse.map charDigit) false =
        luhnSumFrom 0 ((cleanCard s).data.reverse.map charDigit) := by
      have := luhnAux_from ((cleanCard s).data.reverse.map charDigit) 0
      simpa using this
    cases hd : (cleanCard s).data.all Char.isDigit with
    | false =>
      unfold isValidCardNumber
      rw [h0, hd]
      simp
    | true =>
      cases h13 : decide (13 ≤ (cleanCard s).data.length) with
      | false =>
        unfold isValidCardNumber
        rw [h0, hd, h13]
        simp
      | true =>
        cases h19 : decide ((cleanCard s).data.length ≤ 19) with
        | false =>
          unfold isValidCardNumber
          rw [h0, hd, h13, h19]
          simp
        | true =>
          have h13n : 13 ≤ (cleanCard s).data.length := of_decide_eq_true h13
          have hne : (cleanCard s).data.isEmpty = false := by
            cases hl : (cleanCard s).data with
            | nil => rw [hl] at h13n; simp at h13n
            | cons c cs => rfl
          have hlt : decide ((cleanCard s).data.length < 13) = false := by
            rw [decide_eq_false_iff_not]; omega
          have hgt : decide ((cleanCard s).data.length > 19) = false := by
            have h19n : (cleanCard s).data.length ≤ 19 := of_decide_eq_true h19
            rw [decide_eq_false_iff_not]; omega
          unfold isValidCardNumber validateLuhn
          rw [h0, hd, h13, h19, hne, hlt, hgt, haux]
          simp

/-- Claim C7: isValidCardNumber strips separators and dashes, returns
false unless the cleaned string is 13 to 19 digits, and otherwise
returns true exactly when the Luhn checksum passes (digits taken right
to left, every second digit doubled, 9 subtracted above 9, sum
divisible by 10); the valid test card passes, the altered digit fails,
and a too short number fails. -/
theorem card_luhn (s : String) :
    (isValidCardNumber s = true ↔
      (cleanCard s).data.all Char.isDigit = true ∧
      13 ≤ (cleanCard s).data.length ∧ (cleanCard s).data.length ≤ 19 ∧
      luhnSumFrom 0 ((cleanCard s).data.reverse.map charDigit) % 10 = 0)
    ∧ isValidCardNumber "4242424242424242" = true
    ∧ isValidCardNumber "4242424242424241" = false
    ∧ isValidCardNumber "123" = false := by
  refine ⟨?_, by decide, by decide, by decide⟩
  rw [isValidCard_eq s]
  simp only [Bool.and_eq_true, decide_eq_true_eq, beq_iff_eq, and_assoc]

/-- Counterexample for C10 as stated: the code strips every whitespace
character, not only spaces.  With a tab separator the form stripped of
spaces and dashes only still contains a non-digit, yet the check
accepts the card number. -/
theorem card_strip_space_dash_only_refuted :
    ((stripSpaceDash "4242 4242 4242\t4242").data.all Char.isDigit = false)
    ∧ isValidCardNumber "4242 4242 4242\t4242" = true := by decide

/-- Cleaning after stripping spaces and dashes cleans exactly as
cleaning alone: the space and dash set is contained in the whitespace
and dash set. -/
theorem cleanCard_stripSpaceDash (s : String) :
    cleanCard (stripSpaceDash s) = cleanCard s := by
  unfold cleanCard stripSpaceDash
  congr 1
  rw [List.filter_filter]
  apply List.filter_congr
  intro c _
  cases hsp : isJsSpace c with
  | true => simp [hsp]
  | false =>
    cases hd : (c == '-') with
    | true => simp [hsp, hd]
    | false =>
      have hspace : (c == ' ') = false := by
        cases hx : (c == ' ') with
        | true =>
          have hc : c = ' ' := beq_iff_eq.mp hx
          subst hc
          exact absurd hsp (by decide)
        | false => rfl
      simp [hsp, hd, hspace]

/-- Claim C10 (amended): the check is invariant under first removing
spaces and dashes, rejects the empty string, and rejects any string
whose whitespace-and-dash-stripped form contains a non-digit.  The
amendment replaces space-and-dash stripping by whitespace-and-dash
stripping in the non-digit clause, which is what the code performs. -/
theorem card_strip_invariance (s : String) :
    isValidCardNumber s = isValidCardNumber (stripSpaceDash s)
    ∧ isValidCardNumber "" = false
    ∧ ((cleanCard s).data.all Char.isDigit = false → isValidCardNumber s = false) := by
  refine ⟨?_, by decide, ?_⟩
  · rw [isValidCard_eq s, isValidCard_eq (stripSpaceDash s), cleanCard_stripSpaceDash]
  · intro h
    rw [isValidCard_eq s, h]
    simp

/-- Witness for C10: a non-digit inside the stripped form is rejected,
and a dashed card number validates exactly as its stripped form. -/
theorem card_strip_invariance_witness :
    isValidCardNumber "4a42424242424242" = false
    ∧ isValidCardNumber "4242-4242-4242-4242" =
        isValidCardNumber (stripSpaceDash "4242-4242-4242-4242") :=
  ⟨(card_strip_invariance "4a42424242424242").2.2 (by decide),
   (card_strip_invariance "4242-4242-4242-4242").1⟩

/-- Case analysis of fundAccount: either some check failed, no write
happened and the state is returned unchanged, or the account was found,
it is active, and the call performed the insert, the write of the
snapshot balance plus the amount, and the two re-fetches. -/
theorem fundAccount_cases (db : DB) (c aid : Nat) (amt : Rat) (fs : FundingSource) :
    ((fundAccount db c aid amt fs).2 = db ∧ (fundAccount db c aid amt fs).1.isOk = false)
    ∨ ∃ account,
        db.accounts.find? (fun a => a.id == aid && a.userId == c) = some account
        ∧ (account.status == "active") = true
        ∧ fundAccount db c aid amt fs =
            (Except.ok
              { transaction := latestTxFor (insertDeposit db aid amt fs.type) aid
                newBalance :=
                  match (updateBalance (insertDeposit db aid amt fs.type) aid
                      (account.balance + amt)).accounts.find? (fun a => a.id == aid) with
                  | some a => a.balance
                  | none => account.balance + amt },
              updateBalance (insertDeposit db aid amt fs.type) aid (account.balance + amt)) := by
  unfold fundAccount
  split
  · exact Or.inl ⟨rfl, rfl⟩
  · split
    · exact Or.inl ⟨rfl, rfl⟩
    · split
      · exact Or.inl ⟨rfl, rfl⟩
      · next account heq =>
        split
        · exact Or.inl ⟨rfl, rfl⟩
        · next hact =>
          refine Or.inr ⟨account, heq, ?_, rfl⟩
          rw [Bool.not_eq_true] at hact
          simpa using hact

/-- Claim C8: whenever fundAccount fails (invalid amount, card or
routing number, missing or foreign account, inactive account), the
store is unchanged: no journal row is appended and no balance is
modified, because every check runs before the first write. -/
theorem fund_error_no_mutation (db : DB) (c aid : Nat) (amt : Rat) (fs : FundingSource)
    (h : (fundAccount db c aid amt fs).1.isOk = false) :
    (fundAccount db c aid amt fs).2.transactions = db.transactions
    ∧ (fundAccount db c aid amt fs).2.accounts = db.accounts := by
  rcases fundAccount_cases db c aid amt fs with ⟨hdb, _⟩ | ⟨account, _, _, hfund⟩
  · rw [hdb]; exact ⟨rfl, rfl⟩
  · rw [hfund] at h
    simp [Except.isOk, Except.toBool] at h

/-- Witness for C8: a negative amount is rejected and mutates nothing. -/
theorem fund_error_no_mutation_witness :
    (fundAccount dbZero 1 1 (-5 : Rat) cardFs).1.isOk = false
    ∧ (fundAccount dbZero 1 1 (-5 : Rat) cardFs).2.transactions = dbZero.transactions
    ∧ (fundAccount dbZero 1 1 (-5 : Rat) cardFs).2.accounts = dbZero.accounts :=
  ⟨by decide,
   (fund_error_no_mutation dbZero 1 1 (-5 : Rat) cardFs (by decide)).1,
   (fund_error_no_mutation dbZero 1 1 (-5 : Rat) cardFs (by decide)).2⟩

/-- Claim C5: on success the returned newBalance is read back from the
store after the increment: it equals the balance of the stored account
row in the post-state, not a value computed before the write. -/
theorem newBalance_persisted (db : DB) (c aid : Nat) (amt : Rat) (fs : FundingSource)
    (h : (fundAccount db c aid amt fs).1.isOk = true) :
    ∃ a, (fundAccount db c aid amt fs).2.accounts.find? (fun x => x.id == aid) = some a
      ∧ okBalance (fundAccount db c aid amt fs).1 = a.balance := by
  rcases fundAccount_cases db c aid amt fs with ⟨_, hko⟩ | ⟨account, heq, _, hfund⟩
  · rw [h] at hko; cases hko
  · have hmem : account ∈ db.accounts := List.mem_of_find?_eq_some heq
    have hpred := List.find?_some heq
    simp only [Bool.and_eq_true] at hpred
    have hid : (account.id == aid) = true := hpred.1
    have hsome : ∃ a,
        (updateBalance (insertDeposit db aid amt fs.type) aid
            (account.balance + amt)).accounts.find? (fun x => x.id == aid) = some a := by
      rw [← Option.isSome_iff_exists]
      rw [List.find?_isSome]
      refine ⟨{ account with balance := account.balance + amt }, ?_, by simpa using hid⟩
      simp only [updateBalance, insertDeposit]
      exact List.mem_map.mpr ⟨account, hmem, by rw [if_pos hid]⟩
    rcases hsome with ⟨a, ha⟩
    refine ⟨a, ?_, ?_⟩
    · rw [hfund]; exact ha
    · rw [hfund]
      simp only [okBalance]
      rw [ha]

/-- Witness for C5: funding the zero-balance account with 10.50. -/
theorem newBalance_persisted_witness :
    (fundAccount dbZero 1 1 (10.5 : Rat) cardFs).1.isOk = true
    ∧ ∃ a, (fundAccount dbZero 1 1 (10.5 : Rat) cardFs).2.accounts.find?
          (fun x => x.id == 1) = some a
        ∧ okBalance (fundAccount dbZero 1 1 (10.5 : Rat) cardFs).1 = a.balance :=
  ⟨by decide, newBalance_persisted dbZero 1 1 (10.5 : Rat) cardFs (by decide)⟩

/-- Claim C3 fails on the code: the input schema checks only that the
amount is positive.  An amount over the 10000 ceiling with three
fractional digits violates the stated amount rule, yet the call
succeeds and writes a journal row instead of failing before any
mutation. -/
theorem fund_accepts_out_of_range_amount :
    specAmountOk (20000.001 : Rat) = false
    ∧ fundInputValid (20000.001 : Rat) cardFs = true
    ∧ (fundAccount dbZero 1 1 (20000.001 : Rat) cardFs).1.isOk = true
    ∧ (fundAccount dbZero 1 1 (20000.001 : Rat) cardFs).2.transactions.length = 1 := by
  refine ⟨by decide, by decide, by decide, by decide⟩

/-- One fundAccount call run alone through the interleaving machine
performs exactly the state change of fundAccount. -/
theorem fundThread_seq_agrees :
    (runTwo 1 1 100 .card [true, true, true, true, true] (dbZero, {}, {})).1
      = (fundAccount dbZero 1 1 100 cardFs).2 := by decide

/-- Claim C2 fails on the code: both calls read the balance before
either writes it, so one deposit is lost.  Under the interleaved
schedule the final balance is 100 after two deposits of 100, with two
journal rows, instead of 200; the fully sequential schedule does give
200.  The balance write uses a value computed in local memory from a
read that precedes the journal insert, which is exactly the disallowed
read-modify-write pattern. -/
theorem lost_update_interleaving :
    getBalance (runTwo 1 1 100 .card
        [true, false, true, true, true, true, false, false, false, false]
        (dbZero, {}, {})).1 1 = 100
    ∧ (runTwo 1 1 100 .card
        [true, false, true, true, true, true, false, false, false, false]
        (dbZero, {}, {})).1.transactions.length = 2
    ∧ ¬ (getBalance (runTwo 1 1 100 .card
        [true, false, true, true, true, true, false, false, false, false]
        (dbZero, {}, {})).1 1 = 2 * 100)
    ∧ getBalance (runTwo 1 1 100 .card
        [true, true, true, true, true, false, false, false, false, false]
        (dbZero, {}, {})).1 1 = 2 * 100
    ∧ (runTwo 1 1 100 .card
        [true, true, true, true, true, false, false, false, false, false]
        (dbZero, {}, {})).1.transactions.length = 2 := by
  refine ⟨by decide, by decide, by decide, by decide, by decide⟩

/-- The balance write does not change the journal, so completed sums
are unchanged. -/
theorem txSum_updateBalance (db : DB) (aid : Nat) (nb : Rat) (i : Nat) :
    txSum (updateBalance db aid nb) i = txSum db i := rfl

/-- Appending one completed deposit adds its amount to the completed
sum of its own account and leaves every other account sum unchanged. -/
theorem txSum_insertDeposit (db : DB) (aid : Nat) (amt : Rat) (src : FsType) (i : Nat) :
    txSum (insertDeposit db aid amt src) i =
      txSum db i + (if (aid == i) = true then amt else 0) := by
  unfold txSum insertDeposit depositTx
  rw [List.filter_append, List.map_append, List.sum_append]
  congr 1
  by_cases h : (aid == i) = true
  · simp [h]
  · simp [h]

/-- One fundAccount call preserves balance consistency: the inserted
completed row and the balance write agree on the funded account, and
nothing else moves.  The balance write sets every row carrying the
funded id, and the completed sum depends only on the id, so no
uniqueness assumption on ids is needed. -/
theorem fund_preserves_balanceOk (db : DB) (c aid : Nat) (amt : Rat) (fs : FundingSource)
    (hb : balanceOk db) : balanceOk (fundAccount db c aid amt fs).2 := by
  rcases fundAccount_cases db c aid amt fs with ⟨hdb, _⟩ | ⟨account, heq, _, hfund⟩
  · rw [hdb]; exact hb
  · have hmem : account ∈ db.accounts := List.mem_of_find?_eq_some heq
    have hpred := List.find?_some heq
    simp only [Bool.and_eq_true] at hpred
    have hid : account.id = aid := beq_iff_eq.mp hpred.1
    rw [hfund]
    intro a ha
    have haccs : (updateBalance (insertDeposit db aid amt fs.type) aid
        (account.balance + amt)).accounts =
        db.accounts.map (fun x =>
          if (x.id == aid) = true then { x with balance := account.balance + amt } else x) := rfl
    rw [haccs] at ha
    rcases List.mem_map.mp ha with ⟨x, hx, hgx⟩
    have hsum : ∀ i, txSum (updateBalance (insertDeposit db aid amt fs.type) aid
        (account.balance + amt)) i = txSum db i + (if (aid == i) = true then amt else 0) :=
      fun i => by rw [txSum_updateBalance, txSum_insertDeposit]
    by_cases h : (x.id == aid) = true
    · rw [if_pos h] at hgx
      have e1 : ({ x with balance := account.balance + amt } : Account).balance =
          account.balance + amt := rfl
      have e2 : ({ x with balance := account.balance + amt } : Account).id = x.id := rfl
      rw [← hgx, e1, e2, hsum x.id, beq_iff_eq.mp h, if_pos (beq_iff_eq.mpr rfl)]
      have hbacc := hb account hmem
      rw [hid] at hbacc
      rw [hbacc]
    · rw [if_neg h] at hgx
      rw [← hgx, hsum x.id]
      have hne : (aid == x.id) = false := by
        rw [beq_eq_false_iff_ne]
        intro hcontra
        exact h (beq_iff_eq.mpr hcontra.symm)
      have hzero : (if ((aid == x.id) = true) then amt else (0 : Rat)) = 0 := by
        rw [hne]; simp
      rw [hzero, add_zero]
      exact hb x hx

/-- Claim C1: starting from a consistent store, after any sequence of
fundAccount calls every stored balance equals the sum of the amounts of
the completed journal rows of its account.  Failed calls leave the
store unchanged, so this covers every sequence of successful calls. -/
theorem balance_consistency_sequential (db : DB) (reqs : List FundReq)
    (hb : balanceOk db) : balanceOk (applyFunds db reqs) := by
  induction reqs generalizing db with
  | nil => exact hb
  | cons r rs ih =>
    exact ih _ (fund_preserves_balanceOk db r.callerId r.accountId r.amount r.fs hb)

/-- Witness for C1: two funding calls of 10.50 and 2 against the zero
account keep the balance equal to the completed sum. -/
theorem balance_consistency_sequential_witness :
    balanceOk dbZero ∧
      balanceOk (applyFunds dbZero
        [⟨1, 1, (10.5 : Rat), cardFs⟩, ⟨1, 1, (2 : Rat), cardFs⟩]) :=
  ⟨by decide,
   balance_consistency_sequential dbZero
     [⟨1, 1, (10.5 : Rat), cardFs⟩, ⟨1, 1, (2 : Rat), cardFs⟩] (by decide)⟩

/-- A filterMap whose function returns some everywhere on the list is
the corresponding map. -/
theorem filterMap_eq_map_of (l : List α) (f : α → Option β) (g : α → β)
    (h : ∀ x ∈ l, f x = some (g x)) : l.filterMap f = l.map g := by
  induction l with
  | nil => rfl
  | cons a as ih =>
    have hrest := ih (fun x hx => h x (List.mem_cons_of_mem a hx))
    simp [List.filterMap_cons, h a (List.mem_cons_self a as), hrest]

/-- Concatenating page slices of one list, page k starting at k times
the limit, reproduces the list once enough pages are taken. -/
theorem pages_concat (limit : Nat) (_hl : 1 ≤ limit) :
    ∀ (n : Nat) (l : List α), l.length ≤ n * limit →
      (List.range n).flatMap (fun k => (l.drop (k * limit)).take limit) = l := by
  intro n
  induction n with
  | zero =>
    intro l hlen
    have hnil : l = [] := List.eq_nil_of_length_eq_zero (by omega)
    rw [hnil]
    rfl
  | succ m ih =>
    intro l hlen
    rw [List.range_succ_eq_map, List.flatMap_cons, List.flatMap_map]
    have h0 : (l.drop (0 * limit)).take limit = l.take limit := by norm_num
    have hfun : (fun k => (l.drop (Nat.succ k * limit)).take limit) =
        (fun k => (((l.drop limit).drop (k * limit)).take limit)) := by
      funext k
      congr 1
      rw [List.drop_drop]
      congr 1
      rw [Nat.succ_mul]
      omega
    have hlen2 : (l.drop limit).length ≤ m * limit := by
      rw [List.length_drop]
      have hs : (m + 1) * limit = m * limit + limit := Nat.succ_mul m limit
      omega
    rw [h0, hfun, ih (l.drop limit) hlen2, List.take_append_drop]

/-- An account owned by the caller is in particular found by the plain
id lookup used by the join. -/
theorem weakFind_of_own (db : DB) (c aid : Nat)
    (hown : (db.accounts.find? (fun a => a.id == aid && a.userId == c)).isSome = true) :
    ∃ acct2, db.accounts.find? (fun a => a.id == aid) = some acct2 := by
  rw [← Option.isSome_iff_exists, List.find?_isSome]
  rcases List.find?_isSome.mp hown with ⟨x, hx, hpx⟩
  simp only [Bool.and_eq_true] at hpx
  exact ⟨x, hx, hpx.1⟩

/-- When the account id resolves, the inner join enriches every journal
row of the account with that account row. -/
theorem joinedAll_eq_map (db : DB) (aid : Nat) (acct2 : Account)
    (hacct2 : db.accounts.find? (fun a => a.id == aid) = some acct2) :
    joinedAll db aid = (db.transactions.filter (fun t => t.accountId == aid)).map
      (fun t => joinRow t acct2) := by
  unfold joinedAll
  apply filterMap_eq_map_of
  intro t ht
  have htid : (t.accountId == aid) = true := (List.mem_filter.mp ht).2
  rw [beq_iff_eq.mp htid, hacct2]
  rfl

/-- Claim C6: for a fixed store, concatenating the pages of
getTransactions at offsets 0, limit, 2 limit and so on reproduces the
whole enriched history of the account, which is ordered by createdAt
descending, is a permutation of the joined rows (no duplicate, no
missing row), and projects back onto exactly the journal rows of the
account; this holds for any page limit of at least one, in particular
for limits up to 100, and also when createdAt values tie. -/
theorem pagination_reproduces_history (db : DB) (c aid limit n : Nat)
    (hown : (db.accounts.find? (fun a => a.id == aid && a.userId == c)).isSome = true)
    (h1 : 1 ≤ limit) (_h100 : limit ≤ 100)
    (hn : (joinedAll db aid).length ≤ n * limit) :
    (List.range n).flatMap (fun k => okRows (getTransactions db c aid limit (k * limit)))
        = (joinedAll db aid).insertionSort laterJx
    ∧ ((joinedAll db aid).insertionSort laterJx).Perm (joinedAll db aid)
    ∧ List.Sorted laterJx ((joinedAll db aid).insertionSort laterJx)
    ∧ (joinedAll db aid).map JoinedTx.toTx
        = db.transactions.filter (fun t => t.accountId == aid) := by
  obtain ⟨acct, hacct⟩ := Option.isSome_iff_exists.mp hown
  have hok : ∀ off, getTransactions db c aid limit off =
      .ok ((((joinedAll db aid).insertionSort laterJx).drop off).take limit) := by
    intro off
    unfold getTransactions
    rw [hacct]
  refine ⟨?_, List.perm_insertionSort laterJx _, List.sorted_insertionSort laterJx _, ?_⟩
  · have hbody : (fun k => okRows (getTransactions db c aid limit (k * limit))) =
        (fun k => ((((joinedAll db aid).insertionSort laterJx).drop (k * limit)).take limit)) := by
      funext k
      rw [hok (k * limit)]
      rfl
    rw [hbody]
    apply pages_concat limit h1 n
    calc ((joinedAll db aid).insertionSort laterJx).length
        = (joinedAll db aid).length := (List.perm_insertionSort laterJx _).length_eq
      _ ≤ n * limit := hn
  · obtain ⟨acct2, hacct2⟩ := weakFind_of_own db c aid hown
    rw [joinedAll_eq_map db aid acct2 hacct2, List.map_map]
    have hcomp : (JoinedTx.toTx ∘ fun t => joinRow t acct2) = id := by
      funext t
      rfl
    rw [hcomp, List.map_id]

/-- Witness for C6: three rows, two with the same createdAt, pages of
one row each. -/
theorem pagination_reproduces_history_witness :
    (dbPage.accounts.find? (fun a => a.id == 1 && a.userId == 1)).isSome = true
    ∧ ((List.range 3).flatMap (fun k => okRows (getTransactions dbPage 1 1 1 (k * 1)))
          = (joinedAll dbPage 1).insertionSort laterJx
      ∧ ((joinedAll dbPage 1).insertionSort laterJx).Perm (joinedAll dbPage 1)
      ∧ List.Sorted laterJx ((joinedAll dbPage 1).insertionSort laterJx)
      ∧ (joinedAll dbPage 1).map JoinedTx.toTx
          = dbPage.transactions.filter (fun t => t.accountId == 1)) :=
  ⟨by decide,
   pagination_reproduces_history dbPage 1 1 1 3 (by decide) (by decide) (by decide) (by decide)⟩

/-- Claim C9: the join-based getTransactions returns, page for page, the
same enriched rows as the earlier per-row-lookup implementation
restricted to that page: one combined lookup and one lookup per row
produce observationally equal data. -/
theorem join_matches_per_row (db : DB) (c aid limit offset : Nat)
    (rows : List JoinedTx) (old : List EnrichedTx)
    (hnew : getTransactions db c aid limit offset = .ok rows)
    (hold : getTransactionsOld db c aid = .ok old) :
    rows.map JoinedTx.toEnriched = (old.drop offset).take limit := by
  unfold getTransactions at hnew
  unfold getTransactionsOld at hold
  cases hfind : db.accounts.find? (fun a => a.id == aid && a.userId == c) with
  | none => rw [hfind] at hnew; cases hnew
  | some acct =>
    rw [hfind] at hnew hold
    have hrows : rows =
        (((joinedAll db aid).insertionSort laterJx).drop offset).take limit := by
      cases hnew; rfl
    have holdv : old =
        ((db.transactions.filter (fun t => t.accountId == aid)).insertionSort laterTx).map
          (enrichRow db) := by
      cases hold; rfl
    obtain ⟨acct2, hacct2⟩ := weakFind_of_own db c aid (by rw [hfind]; rfl)
    subst hrows
    subst holdv
    rw [joinedAll_eq_map db aid acct2 hacct2]
    rw [← List.map_insertionSort laterTx laterJx (fun t => joinRow t acct2) _
      (fun a _ b _ => Iff.rfl)]
    rw [List.map_take, List.map_drop, List.map_map]
    have hmaps : ((db.transactions.filter (fun t => t.accountId == aid)).insertionSort
        laterTx).map (JoinedTx.toEnriched ∘ fun t => joinRow t acct2) =
        ((db.transactions.filter (fun t => t.accountId == aid)).insertionSort laterTx).map
          (enrichRow db) := by
      apply List.map_congr_left
      intro t ht
      have htmem : t ∈ db.transactions.filter (fun t => t.accountId == aid) :=
        (List.mem_insertionSort laterTx).mp ht
      have htid : (t.accountId == aid) = true := (List.mem_filter.mp htmem).2
      show JoinedTx.toEnriched (joinRow t acct2) = enrichRow db t
      unfold JoinedTx.toEnriched joinRow enrichRow
      rw [beq_iff_eq.mp htid, hacct2]
      rfl
    rw [hmaps]

/-- Witness for C9: page of two rows at offset one over the tied
three-row history. -/
theorem join_matches_per_row_witness :
    getTransactions dbPage 1 1 2 1 = .ok (okRows (getTransactions dbPage 1 1 2 1))
    ∧ getTransactionsOld dbPage 1 1 = .ok (okRowsE (getTransactionsOld dbPage 1 1))
    ∧ (okRows (getTransactions dbPage 1 1 2 1)).map JoinedTx.toEnriched
        = ((okRowsE (getTransactionsOld dbPage 1 1)).drop 1).take 2 :=
  ⟨rfl, rfl,
   join_matches_per_row dbPage 1 1 2 1
     (okRows (getTransactions dbPage 1 1 2 1))
     (okRowsE (getTransactionsOld dbPage 1 1)) rfl rfl⟩
